import Mathlib

/-!
# Verification of the DNN face-detector decoding core (`modules/dnn_face/src/detect.cpp`)

Shallow embedding of `DNNFaceDetectorImpl::generatePriors` and
`DNNFaceDetectorImpl::postProcess`.  C++ `int` arithmetic is modelled by `ℤ`
with truncating division (`Int.tdiv`, the C++ `/` on `int`), and C++ `float`
arithmetic is modelled exactly by `ℚ` (the decode formulas are rational apart
from `sqrt`/`exp`, which are passed in as function parameters so that every
statement about the decode arithmetic holds for the actual transcendental
functions; where a claim needs the true `sqrt`, the generic definitions are
instantiated at `ℝ` with `Real.sqrt`).

`cv::dnn::NMSBoxes` is external to this repository (only its call site is in
the sources here); it is modelled from the spec, see `nmsKeep` below.
-/

namespace DnnFace

/-- Model of `cv::Rect2f prior = { cx, cy, s_kx, s_ky }` — fields named as in `Rect2f`:
`x`/`y` hold the normalised centre, `width`/`height` the normalised base size. -/
structure Prior where
  x : ℚ
  y : ℚ
  width : ℚ
  height : ℚ
deriving DecidableEq, Repr, Inhabited

/-- C++ truncating halving of an `int`: `int(v/2)`. -/
def half (v : ℤ) : ℤ := v.tdiv 2

/-- Source `feature_map_2nd = { int(int((img_w+1)/2)/2), int(int((img_h+1)/2)/2) }`
(stored as `(width, height)` like `cv::Size`). -/
def feature_map_2nd (img_w img_h : ℤ) : ℤ × ℤ :=
  (half (half (img_w + 1)), half (half (img_h + 1)))

/-- Source `feature_map_3rd = { int(feature_map_2nd.width/2), int(feature_map_2nd.height/2) }`. -/
def feature_map_3rd (img_w img_h : ℤ) : ℤ × ℤ :=
  (half (feature_map_2nd img_w img_h).1, half (feature_map_2nd img_w img_h).2)

/-- Source `feature_map_4th`. -/
def feature_map_4th (img_w img_h : ℤ) : ℤ × ℤ :=
  (half (feature_map_3rd img_w img_h).1, half (feature_map_3rd img_w img_h).2)

/-- Source `feature_map_5th`. -/
def feature_map_5th (img_w img_h : ℤ) : ℤ × ℤ :=
  (half (feature_map_4th img_w img_h).1, half (feature_map_4th img_w img_h).2)

/-- Source `feature_map_6th`. -/
def feature_map_6th (img_w img_h : ℤ) : ℤ × ℤ :=
  (half (feature_map_5th img_w img_h).1, half (feature_map_5th img_w img_h).2)

/-- The vector `feature_map_sizes` = 3rd, 4th, 5th, 6th maps, in push order. -/
def feature_map_sizes (img_w img_h : ℤ) : List (ℤ × ℤ) :=
  [feature_map_3rd img_w img_h, feature_map_4th img_w img_h,
   feature_map_5th img_w img_h, feature_map_6th img_w img_h]

/-- The fixed `min_sizes` table of `generatePriors`. -/
def min_sizes : List (List ℚ) :=
  [[10, 16, 24], [32, 48], [64, 96], [128, 192, 256]]

/-- The fixed `steps` table of `generatePriors`. -/
def steps : List ℤ := [8, 16, 32, 64]

/-- One iteration of the outer level loop of `generatePriors`: rows (`_h`)
outermost, then columns (`_w`), then the anchor sizes of the level, each
emitting `Rect2f{cx, cy, s_kx, s_ky}`.  A non-positive feature-map dimension
runs the corresponding C++ loop zero times, which `Int.toNat` reproduces. -/
def levelPriors (img_w img_h : ℤ) (fm : ℤ × ℤ) (min_size : List ℚ) (step : ℤ) : List Prior :=
  (List.range fm.2.toNat).flatMap fun _h =>
    (List.range fm.1.toNat).flatMap fun _w =>
      min_size.map fun s =>
        { x := ((_w : ℚ) + 1/2) * (step : ℚ) / (img_w : ℚ)
          y := ((_h : ℚ) + 1/2) * (step : ℚ) / (img_h : ℚ)
          width := s / (img_w : ℚ)
          height := s / (img_h : ℚ) }

/-- Source `DNNFaceDetectorImpl::generatePriors` (detect.cpp:62-120): the level loop
`for i in 0..4` unrolled over `feature_map_sizes`/`min_sizes`/`steps`. -/
def generatePriors (img_w img_h : ℤ) : List Prior :=
  levelPriors img_w img_h (feature_map_3rd img_w img_h) [10, 16, 24] 8 ++
  levelPriors img_w img_h (feature_map_4th img_w img_h) [32, 48] 16 ++
  levelPriors img_w img_h (feature_map_5th img_w img_h) [64, 96] 32 ++
  levelPriors img_w img_h (feature_map_6th img_w img_h) [128, 192, 256] 64

/-- One decoded row of the `faces` matrix (detect.cpp:136-140):
`(tl_x, tl_y, w, h, re_x, re_y, le_x, le_y, nt_x, nt_y, rcm_x, rcm_y, lcm_x, lcm_y, score)`. -/
structure Face where
  x : ℚ
  y : ℚ
  w : ℚ
  h : ℚ
  re_x : ℚ
  re_y : ℚ
  le_x : ℚ
  le_y : ℚ
  nt_x : ℚ
  nt_y : ℚ
  rcm_x : ℚ
  rcm_y : ℚ
  lcm_x : ℚ
  lcm_y : ℚ
  score : ℚ
deriving DecidableEq, Repr, Inhabited

/-- The clamp applied to `iouScore` (detect.cpp:146-152):
`if (iouScore < 0) iouScore = 0; else if (iouScore > 1) iouScore = 1;`. -/
def clampIou {α : Type} [Zero α] [One α] [LinearOrder α] (v : α) : α :=
  if v < 0 then 0 else if 1 < v then 1 else v

/-- A generic 15-entry face record over a field `α`, so that the decode can be
read both over `ℚ` (exact float model, `sqrt`/`exp` abstract) and over `ℝ`
(with `Real.sqrt`/`Real.exp`). -/
structure FaceG (α : Type) where
  x : α
  y : α
  w : α
  h : α
  re_x : α
  re_y : α
  le_x : α
  le_y : α
  nt_x : α
  nt_y : α
  rcm_x : α
  rcm_y : α
  lcm_x : α
  lcm_y : α
  score : α

/-- A generic prior over a field `α`. -/
structure PriorG (α : Type) where
  x : α
  y : α
  width : α
  height : α

/-- The body of the decode loop of `DNNFaceDetectorImpl::postProcess`
(detect.cpp:135-181) for anchor `i`: tensors are read positionally from the
flat buffers `loc_v`, `conf_v`, `iou_v` exactly as the C++ pointer arithmetic
does (`loc_v[i*14+k]`, `conf_v[i*2+1]`, `iou_v[i]`); `variance = {0.1, 0.2}`. -/
def decodeFace {α : Type} [LinearOrderedField α] (sqrtf expf : α → α)
    (img_w img_h : α) (prior : PriorG α)
    (loc_v conf_v iou_v : ℕ → α) (i : ℕ) : FaceG α :=
  let clsScore := conf_v (i*2+1)
  let iouScore := clampIou (iou_v i)
  let score := sqrtf (clsScore * iouScore)
  let cx := (prior.x + loc_v (i*14+0) * (1/10) * prior.width) * img_w
  let cy := (prior.y + loc_v (i*14+1) * (1/10) * prior.height) * img_h
  let w := prior.width * expf (loc_v (i*14+2) * (1/10)) * img_w
  let h := prior.height * expf (loc_v (i*14+3) * (1/5)) * img_h
  let x1 := cx - w / 2
  let y1 := cy - h / 2
  { x := x1, y := y1, w := w, h := h
    re_x := (prior.x + loc_v (i*14+4) * (1/10) * prior.width) * img_w
    re_y := (prior.y + loc_v (i*14+5) * (1/10) * prior.height) * img_h
    le_x := (prior.x + loc_v (i*14+6) * (1/10) * prior.width) * img_w
    le_y := (prior.y + loc_v (i*14+7) * (1/10) * prior.height) * img_h
    nt_x := (prior.x + loc_v (i*14+8) * (1/10) * prior.width) * img_w
    nt_y := (prior.y + loc_v (i*14+9) * (1/10) * prior.height) * img_h
    rcm_x := (prior.x + loc_v (i*14+10) * (1/10) * prior.width) * img_w
    rcm_y := (prior.y + loc_v (i*14+11) * (1/10) * prior.height) * img_h
    lcm_x := (prior.x + loc_v (i*14+12) * (1/10) * prior.width) * img_w
    lcm_y := (prior.y + loc_v (i*14+13) * (1/10) * prior.height) * img_h
    score := score }

/-- Repackage a rational `FaceG` as the concrete `Face` record. -/
def FaceG.toFace (f : FaceG ℚ) : Face :=
  ⟨f.x, f.y, f.w, f.h, f.re_x, f.re_y, f.le_x, f.le_y, f.nt_x, f.nt_y,
   f.rcm_x, f.rcm_y, f.lcm_x, f.lcm_y, f.score⟩

/-- View a concrete `Prior` generically. -/
def Prior.toG (p : Prior) : PriorG ℚ := ⟨p.x, p.y, p.width, p.height⟩

/-- The decode loop over all priors (detect.cpp:135-181): one `Face` row per
prior, in anchor order. -/
def decodeAll (sqrtf expf : ℚ → ℚ) (img_w img_h : ℚ) (priors : List Prior)
    (loc_v conf_v iou_v : ℕ → ℚ) : List Face :=
  (List.range priors.length).map fun i =>
    (decodeFace sqrtf expf img_w img_h (priors.getD i default).toG loc_v conf_v iou_v i).toFace

/-- C++ `float`→`int` conversion (the implicit conversions in
`Rect2i(faces.at<float>(rIdx,0), ...)`, detect.cpp:190-193): truncation toward
zero. -/
def truncZ (q : ℚ) : ℤ := if q < 0 then ⌈q⌉ else ⌊q⌋

/-- An integer box, as `cv::Rect2i {x, y, width, height}`. -/
structure IBox where
  x : ℤ
  y : ℤ
  w : ℤ
  h : ℤ
deriving DecidableEq, Repr, Inhabited

/-- The `Rect2i` built from a decoded face row before NMS (detect.cpp:190-193):
every coordinate is truncated from float to int. -/
def truncBox (f : Face) : IBox := ⟨truncZ f.x, truncZ f.y, truncZ f.w, truncZ f.h⟩

/-- Intersection area of two integer boxes (half-open pixel rectangles):
overlap widths clamped at zero. -/
def interArea (a b : IBox) : ℤ :=
  max 0 (min (a.x + a.w) (b.x + b.w) - max a.x b.x) *
  max 0 (min (a.y + a.h) (b.y + b.h) - max a.y b.y)

/-- IoU of two integer boxes: intersection area over union area (a degenerate
zero union gives 0, rational division by zero). -/
def iouI (a b : IBox) : ℚ :=
  ((interArea a b : ℤ) : ℚ) / ((a.w * a.h + b.w * b.h - interArea a b : ℤ) : ℚ)

/-- A rational box, for stating properties about the untruncated float boxes
of decoded faces. -/
structure QBox where
  x : ℚ
  y : ℚ
  w : ℚ
  h : ℚ
deriving DecidableEq, Repr, Inhabited

/-- The (untruncated) box of a decoded face row. -/
def boxQ (f : Face) : QBox := ⟨f.x, f.y, f.w, f.h⟩

/-- IoU of two rational boxes (half-open rectangles, intersection over union). -/
def iouQ (a b : QBox) : ℚ :=
  let iw := max 0 (min (a.x + a.w) (b.x + b.w) - max a.x b.x)
  let ih := max 0 (min (a.y + a.h) (b.y + b.h) - max a.y b.y)
  let inter := iw * ih
  inter / (a.w * a.h + b.w * b.h - inter)

/-- One NMS candidate: its original row index in `faces`, its truncated box
(`faceBoxes[rIdx]`) and its float score (`faceScores[rIdx]`),
cf. detect.cpp:186-195. -/
structure Cand where
  idx : ℕ
  box : IBox
  score : ℚ
deriving DecidableEq, Repr, Inhabited

/-- The candidate rows handed to `NMSBoxes` (detect.cpp:188-195): row `rIdx`
contributes its truncated box and its untruncated score. -/
def buildCands (faces : List Face) : List Cand :=
  (List.range faces.length).map fun rIdx =>
    ⟨rIdx, truncBox (faces.getD rIdx default), (faces.getD rIdx default).score⟩

/-- Modelled from the spec (§4.3, step 2 and 4): the ranking used to sort
candidates — higher score first, ties broken by smaller original anchor
index (stable with respect to input order). -/
def rankLE (a b : Cand) : Prop :=
  b.score < a.score ∨ (a.score = b.score ∧ a.idx ≤ b.idx)

instance : DecidableRel rankLE := fun a b => by
  unfold rankLE; infer_instance

instance : IsTotal Cand rankLE := by
  constructor
  intro a b
  rcases lt_trichotomy a.score b.score with h | h | h
  · exact Or.inr (Or.inl h)
  · rcases Nat.le_total a.idx b.idx with hi | hi
    · exact Or.inl (Or.inr ⟨h, hi⟩)
    · exact Or.inr (Or.inr ⟨h.symm, hi⟩)
  · exact Or.inl (Or.inl h)

instance : IsTrans Cand rankLE := by
  constructor
  intro a b c hab hbc
  rcases hab with h1 | ⟨e1, i1⟩
  · rcases hbc with h2 | ⟨e2, _⟩
    · exact Or.inl (h2.trans h1)
    · exact Or.inl (e2 ▸ h1)
  · rcases hbc with h2 | ⟨e2, i2⟩
    · exact Or.inl (e1 ▸ h2)
    · exact Or.inr ⟨e1.trans e2, i1.trans i2⟩

/-- Modelled from the spec (§4.3, step 3): greedy suppression with explicit
fuel (the fuel is always at least the list length, and each step strictly
shrinks the list, so the fuel never runs out): accept the best remaining
candidate, discard every remaining candidate whose IoU with it exceeds
`nms_threshold`, repeat. -/
def nmsGreedyF (nmsT : ℚ) : ℕ → List Cand → List Cand
  | 0, _ => []
  | _ + 1, [] => []
  | fuel + 1, c :: rest =>
    c :: nmsGreedyF nmsT fuel (rest.filter fun d => iouI c.box d.box ≤ nmsT)

/-- Modelled from the spec (§4.3, step 3): greedy suppression. -/
def nmsGreedy (nmsT : ℚ) (l : List Cand) : List Cand := nmsGreedyF nmsT l.length l

/-- Modelled from the spec: `cv::dnn::NMSBoxes` (declared outside this
repository; §4.3 of the spec): keep the candidates whose score meets
`score_threshold`, sort them by descending score with ties broken by original
index, cap the pool at `top_k`, then greedily suppress by IoU.  Returns the
kept candidates in acceptance order. -/
def nmsKeep (scoreT nmsT : ℚ) (topK : ℕ) (cands : List Cand) : List Cand :=
  let eligible := cands.filter fun c => decide (scoreT ≤ c.score)
  let sorted := List.insertionSort rankLE eligible
  nmsGreedy nmsT (sorted.take topK)

/-- The suppression stage of `postProcess` (detect.cpp:183-211): with more
than one decoded row, run NMS on the truncated boxes and float scores and
gather the surviving original rows (`faces.row(idx)`); otherwise return the
rows unchanged. -/
def suppress (scoreT nmsT : ℚ) (topK : ℕ) (faces : List Face) : List Face :=
  if 1 < faces.length then
    (nmsKeep scoreT nmsT topK (buildCands faces)).map fun c => faces.getD c.idx default
  else
    faces

/-- Full `DNNFaceDetectorImpl::postProcess` over the priors of the configured
resolution (detect.cpp:122-212): decode every anchor, then suppress. -/
def postProcess (sqrtf expf : ℚ → ℚ) (img_w img_h : ℤ)
    (loc_v conf_v iou_v : ℕ → ℚ) (scoreT nmsT : ℚ) (topK : ℕ) : List Face :=
  suppress scoreT nmsT topK
    (decodeAll sqrtf expf (img_w : ℚ) (img_h : ℚ) (generatePriors img_w img_h)
      loc_v conf_v iou_v)

/-! ## Spec-side definitions

These follow the words of the spec/claims (for refinement comparisons with the
source-side definitions above). -/

/-- Claim C1's per-prior formula: one prior with
`cx = (_w + 0.5) * stride / image_width`, `cy = (_h + 0.5) * stride / image_height`,
`base_w = s / image_width`, `base_h = s / image_height`. -/
def specPrior (image_width image_height stride : ℤ) (s : ℚ) (_h _w : ℕ) : Prior :=
  { x := ((_w : ℚ) + 1/2) * (stride : ℚ) / (image_width : ℚ)
    y := ((_h : ℚ) + 1/2) * (stride : ℚ) / (image_height : ℚ)
    width := s / (image_width : ℚ)
    height := s / (image_height : ℚ) }

/-- Claim C1's traversal of one scale level: for each row `_h` (0 to height−1),
for each column `_w` (0 to width−1), for each anchor size `s` in listed order,
one prior.  Written with an explicit row-major row/column product to state the
order independently of the source's nested loops. -/
def specLevel (image_width image_height : ℤ) (fm : ℤ × ℤ) (sizes : List ℚ) (stride : ℤ) :
    List Prior :=
  (List.range fm.2.toNat ×ˢ List.range fm.1.toNat).flatMap fun rc =>
    sizes.map fun s => specPrior image_width image_height stride s rc.1 rc.2

/-- Claim C1's whole traversal: the four scale levels in order, with strides
`{8,16,32,64}` and anchor-size sets `{10,16,24}`, `{32,48}`, `{64,96}`,
`{128,192,256}`, each level traversed per `specLevel` over its feature map. -/
def generatePriorsSpec (image_width image_height : ℤ) : List Prior :=
  ((feature_map_sizes image_width image_height).zip (min_sizes.zip steps)).flatMap fun lvl =>
    specLevel image_width image_height lvl.1 lvl.2.1 lvl.2.2

/-- Claim C4's box-centre formula: `cx_px = (prior.cx + dx * 0.1 * prior.base_w) * image_width`
(also the x-formula of every landmark, with the landmark's own delta). -/
def cx_px {α : Type} [LinearOrderedField α] (prior : PriorG α) (dx image_width : α) : α :=
  (prior.x + dx * (1/10) * prior.width) * image_width

/-- Claim C4's y counterpart: `cy_px = (prior.cy + dy * 0.1 * prior.base_h) * image_height`. -/
def cy_px {α : Type} [LinearOrderedField α] (prior : PriorG α) (dy image_height : α) : α :=
  (prior.y + dy * (1/10) * prior.height) * image_height

/-- Claim C4's width formula: `w_px = prior.base_w * exp(dw * 0.1) * image_width`. -/
def w_px {α : Type} [LinearOrderedField α] (expf : α → α) (prior : PriorG α)
    (dw image_width : α) : α :=
  prior.width * expf (dw * (1/10)) * image_width

/-- Claim C4's height formula (variance 0.2):
`h_px = prior.base_h * exp(dh * 0.2) * image_height`. -/
def h_px {α : Type} [LinearOrderedField α] (expf : α → α) (prior : PriorG α)
    (dh image_height : α) : α :=
  prior.height * expf (dh * (1/5)) * image_height

/-! ## Concrete records used by counterexamples and witnesses -/

/-- A face row whose float box is `(0, 0, 1.99, 1)`, score `0.95`. -/
def faceA : Face := ⟨0, 0, 199/100, 1, 0, 0, 0, 0, 0, 0, 0, 0, 0, 0, 95/100⟩

/-- A face row whose float box is `(1, 0, 1.99, 1)`, score `0.94`: it overlaps
`faceA` with float IoU `99/299 > 0.3`, but the truncated integer boxes
`(0,0,1,1)` and `(1,0,1,1)` are disjoint. -/
def faceB : Face := ⟨1, 0, 199/100, 1, 0, 0, 0, 0, 0, 0, 0, 0, 0, 0, 94/100⟩

/-- A face row with box `(0.5, 1/3, 2.5, 3.5)`, score `0.97`. -/
def faceC : Face := ⟨1/2, 1/3, 5/2, 7/2, 0, 0, 0, 0, 0, 0, 0, 0, 0, 0, 97/100⟩

/-- A face row with box `(0.75, 0.25, 2.7, 3.8)`, score `0.96`: its float box
differs from `faceC`'s only by sub-pixel amounts — both truncate to
`(0, 0, 2, 3)`. -/
def faceD : Face := ⟨3/4, 1/4, 27/10, 19/5, 0, 0, 0, 0, 0, 0, 0, 0, 0, 0, 96/100⟩

/-- The face row produced at every anchor of the 8×8 pipeline run with
`loc ≡ 0`, `conf ≡ 1`, `iou ≡ 1`, `sqrtf = id`, `expf = id`. -/
def faceP : Face := ⟨4, 4, 0, 0, 4, 4, 4, 4, 4, 4, 4, 4, 4, 4, 1⟩

/-! ## Helper lemmas -/

lemma product_flatMap {α β γ : Type} (l1 : List α) (l2 : List β) (g : α × β → List γ) :
    (l1 ×ˢ l2).flatMap g = l1.flatMap fun a => l2.flatMap fun b => g (a, b) := by
  induction l1 with
  | nil => rfl
  | cons a t ih => simp [List.product_cons, List.flatMap_append, List.flatMap_map, ih]

lemma specLevel_eq (iw ih : ℤ) (fm : ℤ × ℤ) (sizes : List ℚ) (st : ℤ) :
    specLevel iw ih fm sizes st = levelPriors iw ih fm sizes st := by
  unfold specLevel levelPriors specPrior
  rw [product_flatMap]

lemma levelPriors_length (iw ih : ℤ) (fm : ℤ × ℤ) (ms : List ℚ) (st : ℤ) :
    (levelPriors iw ih fm ms st).length = fm.2.toNat * (fm.1.toNat * ms.length) := by
  unfold levelPriors
  simp [List.length_flatMap, Function.comp_def, List.map_const', List.sum_replicate,
    smul_eq_mul]

lemma decodeAll_length (sqrtf expf : ℚ → ℚ) (iw ih : ℚ) (priors : List Prior)
    (loc_v conf_v iou_v : ℕ → ℚ) :
    (decodeAll sqrtf expf iw ih priors loc_v conf_v iou_v).length = priors.length := by
  simp [decodeAll]

lemma generatePriors_length_ne_one (iw ih : ℤ) : (generatePriors iw ih).length ≠ 1 := by
  intro hc
  have e : (generatePriors iw ih).length =
      (feature_map_3rd iw ih).2.toNat * ((feature_map_3rd iw ih).1.toNat * 3) +
      ((feature_map_4th iw ih).2.toNat * ((feature_map_4th iw ih).1.toNat * 2) +
       ((feature_map_5th iw ih).2.toNat * ((feature_map_5th iw ih).1.toNat * 2) +
        (feature_map_6th iw ih).2.toNat * ((feature_map_6th iw ih).1.toNat * 3))) := by
    simp [generatePriors, levelPriors_length]
  rw [hc] at e
  have r : ∀ x y : ℕ, x * (y * 2) = 2 * (x * y) ∧ x * (y * 3) = 3 * (x * y) := by
    intro x y; constructor <;> ring
  rw [(r _ _).2, (r _ _).1, (r _ _).1, (r _ _).2] at e
  generalize (feature_map_3rd iw ih).2.toNat * (feature_map_3rd iw ih).1.toNat = A at e
  generalize (feature_map_4th iw ih).2.toNat * (feature_map_4th iw ih).1.toNat = B at e
  generalize (feature_map_5th iw ih).2.toNat * (feature_map_5th iw ih).1.toNat = C at e
  generalize (feature_map_6th iw ih).2.toNat * (feature_map_6th iw ih).1.toNat = D at e
  omega

lemma clampIou_mem {α : Type} [LinearOrderedField α] (v : α) :
    0 ≤ clampIou v ∧ clampIou v ≤ 1 := by
  unfold clampIou
  split_ifs with h1 h2
  · exact ⟨le_rfl, zero_le_one⟩
  · exact ⟨zero_le_one, le_rfl⟩
  · exact ⟨not_lt.1 h1, not_lt.1 h2⟩

lemma clampIou_eq_min_max {α : Type} [LinearOrderedField α] (v : α) :
    clampIou v = min 1 (max 0 v) := by
  unfold clampIou
  split_ifs with h1 h2
  · rw [max_eq_left h1.le, min_eq_right zero_le_one]
  · rw [max_eq_right (not_lt.1 h1), min_eq_left h2.le]
  · rw [max_eq_right (not_lt.1 h1), min_eq_right (not_lt.1 h2)]

lemma interArea_comm (a b : IBox) : interArea a b = interArea b a := by
  unfold interArea
  rw [min_comm (a.x + a.w) (b.x + b.w), max_comm a.x b.x,
    min_comm (a.y + a.h) (b.y + b.h), max_comm a.y b.y]

lemma iouI_comm (a b : IBox) : iouI a b = iouI b a := by
  unfold iouI
  rw [interArea_comm]
  ring_nf

lemma half_nonpos {x : ℤ} (hx : x ≤ 1) : half x ≤ 0 := by
  unfold half
  cases x with
  | ofNat n =>
    have hn : n ≤ 1 := by
      have hx2 : (n : ℤ) ≤ 1 := hx
      exact_mod_cast hx2
    rcases Nat.le_one_iff_eq_zero_or_eq_one.1 hn with rfl | rfl <;> decide
  | negSucc n =>
    rw [show (Int.negSucc n).tdiv 2 = -Int.ofNat ((n + 1) / 2) from by simp [Int.tdiv]]
    exact neg_nonpos.2 (Int.natCast_nonneg _)

lemma levelPriors_nil {iw ih : ℤ} {fm : ℤ × ℤ} {ms : List ℚ} {st : ℤ}
    (hfm : fm.1 ≤ 0 ∨ fm.2 ≤ 0) : levelPriors iw ih fm ms st = [] := by
  unfold levelPriors
  rcases hfm with h1 | h2
  · simp [Int.toNat_of_nonpos h1]
  · simp [Int.toNat_of_nonpos h2]

lemma feature_maps_nonpos {iw ih : ℤ} (hdim : iw ≤ 0 ∨ ih ≤ 0) :
    ((feature_map_3rd iw ih).1 ≤ 0 ∨ (feature_map_3rd iw ih).2 ≤ 0) ∧
    ((feature_map_4th iw ih).1 ≤ 0 ∨ (feature_map_4th iw ih).2 ≤ 0) ∧
    ((feature_map_5th iw ih).1 ≤ 0 ∨ (feature_map_5th iw ih).2 ≤ 0) ∧
    ((feature_map_6th iw ih).1 ≤ 0 ∨ (feature_map_6th iw ih).2 ≤ 0) := by
  have step : ∀ x : ℤ, x ≤ 0 → half x ≤ 0 := fun x hx =>
    half_nonpos (hx.trans zero_le_one)
  rcases hdim with hw | hh
  · have f2 : (feature_map_2nd iw ih).1 ≤ 0 :=
      step _ (half_nonpos (by omega))
    have f3 : (feature_map_3rd iw ih).1 ≤ 0 := step _ f2
    have f4 : (feature_map_4th iw ih).1 ≤ 0 := step _ f3
    have f5 : (feature_map_5th iw ih).1 ≤ 0 := step _ f4
    have f6 : (feature_map_6th iw ih).1 ≤ 0 := step _ f5
    exact ⟨Or.inl f3, Or.inl f4, Or.inl f5, Or.inl f6⟩
  · have f2 : (feature_map_2nd iw ih).2 ≤ 0 :=
      step _ (half_nonpos (by omega))
    have f3 : (feature_map_3rd iw ih).2 ≤ 0 := step _ f2
    have f4 : (feature_map_4th iw ih).2 ≤ 0 := step _ f3
    have f5 : (feature_map_5th iw ih).2 ≤ 0 := step _ f4
    have f6 : (feature_map_6th iw ih).2 ≤ 0 := step _ f5
    exact ⟨Or.inr f3, Or.inr f4, Or.inr f5, Or.inr f6⟩

lemma generatePriors_nil {iw ih : ℤ} (hdim : iw ≤ 0 ∨ ih ≤ 0) :
    generatePriors iw ih = [] := by
  obtain ⟨h3, h4, h5, h6⟩ := feature_maps_nonpos hdim
  unfold generatePriors
  rw [levelPriors_nil h3, levelPriors_nil h4, levelPriors_nil h5, levelPriors_nil h6]
  rfl

lemma mem_buildCands {faces : List Face} {c : Cand} (hc : c ∈ buildCands faces) :
    c.idx < faces.length ∧ c.box = truncBox (faces.getD c.idx default) ∧
    c.score = (faces.getD c.idx default).score := by
  unfold buildCands at hc
  rcases List.mem_map.1 hc with ⟨r, hr, rfl⟩
  exact ⟨List.mem_range.1 hr, rfl, rfl⟩

lemma buildCands_pairwise_idx (faces : List Face) :
    (buildCands faces).Pairwise fun a b => a.idx < b.idx := by
  unfold buildCands
  rw [List.pairwise_map]
  simpa using List.pairwise_lt_range _

lemma nmsGreedyF_sublist (nmsT : ℚ) : ∀ (fuel : ℕ) (l : List Cand),
    (nmsGreedyF nmsT fuel l).Sublist l := by
  intro fuel
  induction fuel with
  | zero => intro l; simp [nmsGreedyF]
  | succ n ih =>
    intro l
    cases l with
    | nil => simp [nmsGreedyF]
    | cons c rest =>
      exact List.Sublist.cons₂ c ((ih _).trans (List.filter_sublist _))

lemma nmsGreedyF_pairwise (nmsT : ℚ) : ∀ (fuel : ℕ) (l : List Cand),
    (nmsGreedyF nmsT fuel l).Pairwise fun a b => iouI a.box b.box ≤ nmsT := by
  intro fuel
  induction fuel with
  | zero => intro l; simp [nmsGreedyF]
  | succ n ih =>
    intro l
    cases l with
    | nil => simp [nmsGreedyF]
    | cons c rest =>
      refine List.pairwise_cons.2 ⟨?_, ih _⟩
      intro d hd
      have hd2 : d ∈ rest.filter fun d => decide (iouI c.box d.box ≤ nmsT) :=
        (nmsGreedyF_sublist nmsT n _).subset hd
      exact of_decide_eq_true (List.mem_filter.1 hd2).2

lemma mem_nmsKeep {scoreT nmsT : ℚ} {topK : ℕ} {cands : List Cand} {c : Cand}
    (hc : c ∈ nmsKeep scoreT nmsT topK cands) :
    c ∈ cands ∧ scoreT ≤ c.score := by
  unfold nmsKeep nmsGreedy at hc
  have h1 := (List.take_sublist _ _).subset ((nmsGreedyF_sublist _ _ _).subset hc)
  have h2 := (List.perm_insertionSort rankLE _).subset h1
  exact ⟨(List.filter_sublist _).subset h2, of_decide_eq_true (List.mem_filter.1 h2).2⟩

lemma nmsKeep_pairwise_iou (scoreT nmsT : ℚ) (topK : ℕ) (cands : List Cand) :
    (nmsKeep scoreT nmsT topK cands).Pairwise fun a b => iouI a.box b.box ≤ nmsT := by
  unfold nmsKeep nmsGreedy
  exact nmsGreedyF_pairwise _ _ _

lemma nmsKeep_pairwise_rank (scoreT nmsT : ℚ) (topK : ℕ) (cands : List Cand) :
    (nmsKeep scoreT nmsT topK cands).Pairwise rankLE := by
  unfold nmsKeep nmsGreedy
  exact List.Pairwise.sublist ((nmsGreedyF_sublist _ _ _).trans (List.take_sublist _ _))
    (List.sorted_insertionSort rankLE _)

lemma nmsKeep_pairwise_ne_idx (scoreT nmsT : ℚ) (topK : ℕ) {cands : List Cand}
    (hp : cands.Pairwise fun a b => a.idx < b.idx) :
    (nmsKeep scoreT nmsT topK cands).Pairwise fun a b => a.idx ≠ b.idx := by
  unfold nmsKeep nmsGreedy
  have h1 : (cands.filter fun c => decide (scoreT ≤ c.score)).Pairwise
      (fun a b => a.idx ≠ b.idx) :=
    List.Pairwise.sublist (List.filter_sublist _) (hp.imp fun h => Nat.ne_of_lt h)
  have h2 : (List.insertionSort rankLE
      (cands.filter fun c => decide (scoreT ≤ c.score))).Pairwise
      (fun a b => a.idx ≠ b.idx) :=
    ((List.perm_insertionSort rankLE _).pairwise_iff fun h => Ne.symm h).2 h1
  exact List.Pairwise.sublist ((nmsGreedyF_sublist _ _ _).trans (List.take_sublist _ _)) h2

lemma nmsKeep_pairwise_strict (scoreT nmsT : ℚ) (topK : ℕ) (faces : List Face) :
    (nmsKeep scoreT nmsT topK (buildCands faces)).Pairwise
      fun a b => b.score < a.score ∨ (a.score = b.score ∧ a.idx < b.idx) := by
  have h1 := nmsKeep_pairwise_rank scoreT nmsT topK (buildCands faces)
  have h2 := nmsKeep_pairwise_ne_idx scoreT nmsT topK (buildCands_pairwise_idx faces)
  refine (h1.and h2).imp ?_
  rintro a b ⟨hr | ⟨he, hle⟩, hne⟩
  · exact Or.inl hr
  · exact Or.inr ⟨he, lt_of_le_of_ne hle hne⟩

/-! ## Claim theorems -/

/-- C1: for every positive input resolution, `generatePriors` emits priors in
exactly the claimed order — levels in order with strides `{8,16,32,64}` and
anchor-size sets `{10,16,24}`, `{32,48}`, `{64,96}`, `{128,192,256}`; within a
level row-major over the feature map, then sizes in listed order, each prior
carrying `cx = (_w + 0.5)*stride/image_width`, `cy = (_h + 0.5)*stride/image_height`,
`base_w = s/image_width`, `base_h = s/image_height`. -/
theorem prior_traversal_order (image_width image_height : ℤ)
    (_hw : 0 < image_width) (_hh : 0 < image_height) :
    generatePriors image_width image_height = generatePriorsSpec image_width image_height := by
  simp [generatePriors, generatePriorsSpec, feature_map_sizes, min_sizes, steps,
    specLevel_eq, List.zip_cons_cons, List.flatMap_cons, List.append_assoc]

/-- Witness for C1 at the concrete resolution 8×8. -/
theorem prior_traversal_order_witness :
    (0 : ℤ) < 8 ∧ generatePriors 8 8 = generatePriorsSpec 8 8 :=
  ⟨by decide, prior_traversal_order 8 8 (by decide) (by decide)⟩

/-- C2 counterexample: at input resolution (320, 240), the stride-8 level (the
first entry of `feature_map_sizes`, paired with `steps[0] = 8`) has feature-map
size (40, 30), not (80, 60), and contributes 40·30·3 = 3600 priors, not 14400. -/
theorem stride8_level_counterexample :
    (feature_map_sizes 320 240).getD 0 (0, 0) = (40, 30) ∧
    steps.getD 0 0 = 8 ∧
    ((40, 30) : ℤ × ℤ) ≠ (80, 60) ∧
    (levelPriors 320 240 (feature_map_3rd 320 240) [10, 16, 24] 8).length = 3600 ∧
    (3600 : ℕ) ≠ 14400 := by
  refine ⟨by decide, by decide, by decide, ?_, by decide⟩
  rw [levelPriors_length]
  decide

/-- C2 (amended): at (320, 240) the value `(int((320+1)/2)/2, int((240+1)/2)/2)
= (80, 60)` is the 2nd feature map, which is not a detection level; the stride-8
detection level is the 3rd map, one further truncating halving, of size
(40, 30), so it contributes 40·30·3 = 3600 priors, and the four detection
levels together contribute 4385 priors. -/
theorem stride8_level_amended :
    feature_map_2nd 320 240 = (80, 60) ∧
    feature_map_3rd 320 240 = (40, 30) ∧
    (levelPriors 320 240 (feature_map_3rd 320 240) [10, 16, 24] 8).length = 40 * 30 * 3 ∧
    (generatePriors 320 240).length = 4385 := by
  refine ⟨by decide, by decide, ?_, ?_⟩
  · rw [levelPriors_length]; decide
  · simp only [generatePriors, List.length_append, levelPriors_length]
    decide

/-- C3: for every anchor `i`, the decoder computes the fused score as
`sqrt(face_conf[i] * clamp(iou[i], 0, 1))` — the IoU value is clamped to [0,1]
before the multiplication, and the product is what is passed to `sqrt`. -/
theorem fused_score_clamp_then_sqrt {α : Type} [LinearOrderedField α]
    (sqrtf expf : α → α) (image_width image_height : α) (prior : PriorG α)
    (loc_v conf_v iou_v : ℕ → α) (i : ℕ) :
    (decodeFace sqrtf expf image_width image_height prior loc_v conf_v iou_v i).score
      = sqrtf (conf_v (i * 2 + 1) * min 1 (max 0 (iou_v i))) := by
  show sqrtf (conf_v (i * 2 + 1) * clampIou (iou_v i)) = _
  rw [clampIou_eq_min_max]

/-- C4: for every anchor, the decoded box satisfies the SSD-style formulas with
variance 0.1 for centres and width and 0.2 for height
(`cx_px = (prior.cx + dx*0.1*base_w)*image_width`, etc., top-left corner
`x = cx_px - w_px/2`, `y = cy_px - h_px/2`), and each of the ten landmark
coordinates uses the centre formula (variance 0.1 only) with its own delta. -/
theorem box_and_landmark_decode {α : Type} [LinearOrderedField α]
    (sqrtf expf : α → α) (image_width image_height : α) (prior : PriorG α)
    (loc_v conf_v iou_v : ℕ → α) (i : ℕ) :
    (decodeFace sqrtf expf image_width image_height prior loc_v conf_v iou_v i).x
      = cx_px prior (loc_v (i*14+0)) image_width
        - w_px expf prior (loc_v (i*14+2)) image_width / 2 ∧
    (decodeFace sqrtf expf image_width image_height prior loc_v conf_v iou_v i).y
      = cy_px prior (loc_v (i*14+1)) image_height
        - h_px expf prior (loc_v (i*14+3)) image_height / 2 ∧
    (decodeFace sqrtf expf image_width image_height prior loc_v conf_v iou_v i).w
      = w_px expf prior (loc_v (i*14+2)) image_width ∧
    (decodeFace sqrtf expf image_width image_height prior loc_v conf_v iou_v i).h
      = h_px expf prior (loc_v (i*14+3)) image_height ∧
    (decodeFace sqrtf expf image_width image_height prior loc_v conf_v iou_v i).re_x
      = cx_px prior (loc_v (i*14+4)) image_width ∧
    (decodeFace sqrtf expf image_width image_height prior loc_v conf_v iou_v i).re_y
      = cy_px prior (loc_v (i*14+5)) image_height ∧
    (decodeFace sqrtf expf image_width image_height prior loc_v conf_v iou_v i).le_x
      = cx_px prior (loc_v (i*14+6)) image_width ∧
    (decodeFace sqrtf expf image_width image_height prior loc_v conf_v iou_v i).le_y
      = cy_px prior (loc_v (i*14+7)) image_height ∧
    (decodeFace sqrtf expf image_width image_height prior loc_v conf_v iou_v i).nt_x
      = cx_px prior (loc_v (i*14+8)) image_width ∧
    (decodeFace sqrtf expf image_width image_height prior loc_v conf_v iou_v i).nt_y
      = cy_px prior (loc_v (i*14+9)) image_height ∧
    (decodeFace sqrtf expf image_width image_height prior loc_v conf_v iou_v i).rcm_x
      = cx_px prior (loc_v (i*14+10)) image_width ∧
    (decodeFace sqrtf expf image_width image_height prior loc_v conf_v iou_v i).rcm_y
      = cy_px prior (loc_v (i*14+11)) image_height ∧
    (decodeFace sqrtf expf image_width image_height prior loc_v conf_v iou_v i).lcm_x
      = cx_px prior (loc_v (i*14+12)) image_width ∧
    (decodeFace sqrtf expf image_width image_height prior loc_v conf_v iou_v i).lcm_y
      = cy_px prior (loc_v (i*14+13)) image_height :=
  ⟨rfl, rfl, rfl, rfl, rfl, rfl, rfl, rfl, rfl, rfl, rfl, rfl, rfl, rfl⟩

/-- C5: every detection returned by the pipeline has fused score at least
`score_threshold`, for every number of decoded candidates (the prior count is
never exactly 1, zero candidates give an empty list, and with at least two the
spec-modelled NMS only keeps score-eligible candidates). -/
theorem detections_meet_score_threshold (sqrtf expf : ℚ → ℚ) (img_w img_h : ℤ)
    (loc_v conf_v iou_v : ℕ → ℚ) (scoreT nmsT : ℚ) (topK : ℕ) :
    ∀ f ∈ postProcess sqrtf expf img_w img_h loc_v conf_v iou_v scoreT nmsT topK,
      scoreT ≤ f.score := by
  intro f hf
  unfold postProcess suppress at hf
  split_ifs at hf with hl
  · rcases List.mem_map.1 hf with ⟨c, hc, rfl⟩
    obtain ⟨hcands, hsc⟩ := mem_nmsKeep hc
    obtain ⟨_, _, hscore⟩ := mem_buildCands hcands
    rw [← hscore]
    exact hsc
  · exfalso
    have hne := generatePriors_length_ne_one img_w img_h
    have hlen := decodeAll_length sqrtf expf (img_w : ℚ) (img_h : ℚ)
      (generatePriors img_w img_h) loc_v conf_v iou_v
    have h0 : (decodeAll sqrtf expf (img_w : ℚ) (img_h : ℚ) (generatePriors img_w img_h)
        loc_v conf_v iou_v).length = 0 := by omega
    rw [List.length_eq_zero.1 h0] at hf
    exact List.not_mem_nil f hf

/-- Witness for C5: the 8×8 pipeline with `loc ≡ 0`, `conf ≡ 1`, `iou ≡ 1`
(and `sqrtf`, `expf` instantiated to concrete functions) returns `faceP` among
its detections, and its score meets the threshold 0.9. -/
theorem detections_meet_score_threshold_witness :
    faceP ∈ postProcess (fun x => x) (fun x => x) 8 8 (fun _ => 0) (fun _ => 1) (fun _ => 1)
      (9/10) (3/10) 5000 ∧ (9/10 : ℚ) ≤ faceP.score := by
  have hmem : faceP ∈ postProcess (fun x => x) (fun x => x) 8 8 (fun _ => 0) (fun _ => 1)
      (fun _ => 1) (9/10) (3/10) 5000 := by
    have he : postProcess (fun x => x) (fun x => x) 8 8 (fun _ => 0) (fun _ => 1) (fun _ => 1)
        (9/10) (3/10) 5000 = [faceP, faceP, faceP] := by
      norm_num [postProcess, generatePriors, levelPriors, feature_map_3rd, feature_map_4th,
        feature_map_5th, feature_map_6th, feature_map_2nd, half, Int.tdiv,
        decodeAll, decodeFace, clampIou, Prior.toG, FaceG.toFace,
        suppress, buildCands, nmsKeep, nmsGreedy, nmsGreedyF, rankLE, truncBox, truncZ,
        iouI, interArea, List.insertionSort, List.orderedInsert, List.range_succ, faceP]
    rw [he]
    simp
  exact ⟨hmem,
    detections_meet_score_threshold (fun x => x) (fun x => x) 8 8 (fun _ => 0) (fun _ => 1)
      (fun _ => 1) (9/10) (3/10) 5000 faceP hmem⟩

/-- C6 counterexample: `faceA` and `faceB` both survive suppression at
`score_threshold = 0.9`, `nms_threshold = 0.3`, yet the IoU of their
(untruncated float) boxes is `99/299 > 0.3` — only the truncated integer boxes
(which are disjoint here) are compared by NMS. -/
theorem surviving_float_iou_counterexample :
    suppress (9/10) (3/10) 5000 [faceA, faceB] = [faceA, faceB] ∧
    ¬ (iouQ (boxQ faceA) (boxQ faceB) ≤ 3/10) := by
  constructor
  · norm_num [suppress, buildCands, nmsKeep, nmsGreedy, nmsGreedyF, rankLE, truncBox, truncZ,
      iouI, interArea, faceA, faceB, List.insertionSort, List.orderedInsert, List.range_succ]
  · norm_num [iouQ, boxQ, faceA, faceB]

/-- C6 (amended): for every pair of distinct detections in the returned list,
the IoU of their truncated integer boxes — the boxes suppression actually
compares — is at most `nms_threshold` (in both orders). -/
theorem surviving_trunc_boxes_iou_le (scoreT nmsT : ℚ) (topK : ℕ) (faces : List Face) :
    (suppress scoreT nmsT topK faces).Pairwise fun f g =>
      iouI (truncBox f) (truncBox g) ≤ nmsT ∧ iouI (truncBox g) (truncBox f) ≤ nmsT := by
  unfold suppress
  split_ifs with hl
  · rw [List.pairwise_map]
    refine (nmsKeep_pairwise_iou scoreT nmsT topK (buildCands faces)).imp_of_mem ?_
    intro a b ha hb hab
    obtain ⟨_, hboxa, _⟩ := mem_buildCands (mem_nmsKeep ha).1
    obtain ⟨_, hboxb, _⟩ := mem_buildCands (mem_nmsKeep hb).1
    rw [← hboxa, ← hboxb]
    exact ⟨hab, iouI_comm b.box a.box ▸ hab⟩
  · rcases faces with _ | ⟨a, _ | ⟨b, t⟩⟩
    · exact List.Pairwise.nil
    · exact List.pairwise_singleton _ _
    · exact absurd (by simp) hl

/-- C7: the returned detection list is ordered by descending fused score, and
the kept-candidate list underlying it (the suppression branch returns exactly
the kept candidates' original rows) is strictly ranked: a later kept candidate
has strictly smaller score, or equal score and strictly larger original anchor
index — the tie-break is stable with respect to the pre-suppression order. -/
theorem detections_sorted_desc_stable (scoreT nmsT : ℚ) (topK : ℕ) (faces : List Face) :
    (suppress scoreT nmsT topK faces).Pairwise (fun f g => g.score ≤ f.score) ∧
    (1 < faces.length →
      suppress scoreT nmsT topK faces
        = (nmsKeep scoreT nmsT topK (buildCands faces)).map fun c => faces.getD c.idx default) ∧
    (nmsKeep scoreT nmsT topK (buildCands faces)).Pairwise
      (fun a b => b.score < a.score ∨ (a.score = b.score ∧ a.idx < b.idx)) := by
  refine ⟨?_, ?_, nmsKeep_pairwise_strict scoreT nmsT topK faces⟩
  · unfold suppress
    split_ifs with hl
    · rw [List.pairwise_map]
      refine (nmsKeep_pairwise_strict scoreT nmsT topK faces).imp_of_mem ?_
      intro a b ha hb hab
      obtain ⟨_, _, hsa⟩ := mem_buildCands (mem_nmsKeep ha).1
      obtain ⟨_, _, hsb⟩ := mem_buildCands (mem_nmsKeep hb).1
      rw [← hsa, ← hsb]
      rcases hab with h | ⟨he, _⟩
      · exact h.le
      · exact he.ge
    · rcases faces with _ | ⟨a, _ | ⟨b, t⟩⟩
      · exact List.Pairwise.nil
      · exact List.pairwise_singleton _ _
      · exact absurd (by simp) hl
  · intro hl
    unfold suppress
    rw [if_pos hl]

/-- Witness for C7 at the concrete two-candidate list `[faceC, faceD]`. -/
theorem detections_sorted_desc_stable_witness :
    suppress (9/10) (3/10) 5000 [faceC, faceD]
      = (nmsKeep (9/10) (3/10) 5000 (buildCands [faceC, faceD])).map
          (fun c => [faceC, faceD].getD c.idx default) ∧
    (suppress (9/10) (3/10) 5000 [faceC, faceD]).Pairwise (fun f g => g.score ≤ f.score) := by
  have h := detections_sorted_desc_stable (9/10) (3/10) 5000 [faceC, faceD]
  exact ⟨h.2.1 (by simp), h.1⟩

/-- C8 counterexample: only the IoU factor is clamped — with face confidence 4
and IoU 1 the fused score is `sqrt(4·1) = 2`, outside `[0,1]`.  (Stated over
`ℝ` with the true square root.) -/
theorem fused_score_exceeds_one_counterexample :
    (decodeFace (α := ℝ) Real.sqrt Real.exp 1 1 ⟨0, 0, 0, 0⟩ (fun _ => 0) (fun _ => 4)
      (fun _ => 1) 0).score = 2 ∧
    ¬ ((decodeFace (α := ℝ) Real.sqrt Real.exp 1 1 ⟨0, 0, 0, 0⟩ (fun _ => 0) (fun _ => 4)
      (fun _ => 1) 0).score ≤ 1) := by
  have hs : (decodeFace (α := ℝ) Real.sqrt Real.exp 1 1 ⟨0, 0, 0, 0⟩ (fun _ => 0)
      (fun _ => 4) (fun _ => 1) 0).score = Real.sqrt (4 * clampIou (1 : ℝ)) := rfl
  have hc : clampIou (1 : ℝ) = 1 := by norm_num [clampIou]
  have h2 : Real.sqrt (4 * clampIou (1 : ℝ)) = 2 := by
    rw [hc, show (4 : ℝ) * 1 = 2 ^ 2 by norm_num]
    exact Real.sqrt_sq (by norm_num)
  refine ⟨hs.trans h2, ?_⟩
  rw [hs, h2]
  norm_num

/-- C8 (amended): whenever the face-confidence entry lies in `[0,1]` (the IoU
entry is clamped by the decoder, the confidence is not), the fused score of
the decoded candidate lies in `[0,1]`. -/
theorem fused_score_in_unit_interval (image_width image_height : ℝ) (prior : PriorG ℝ)
    (loc_v conf_v iou_v : ℕ → ℝ) (i : ℕ)
    (_h0 : 0 ≤ conf_v (i * 2 + 1)) (h1 : conf_v (i * 2 + 1) ≤ 1) :
    0 ≤ (decodeFace Real.sqrt Real.exp image_width image_height prior
          loc_v conf_v iou_v i).score ∧
    (decodeFace Real.sqrt Real.exp image_width image_height prior
      loc_v conf_v iou_v i).score ≤ 1 := by
  have hs : (decodeFace Real.sqrt Real.exp image_width image_height prior
      loc_v conf_v iou_v i).score
        = Real.sqrt (conf_v (i * 2 + 1) * clampIou (iou_v i)) := rfl
  obtain ⟨hc0, hc1⟩ := clampIou_mem (iou_v i)
  rw [hs]
  exact ⟨Real.sqrt_nonneg _, Real.sqrt_le_one.2 (mul_le_one₀ h1 hc0 hc1)⟩

/-- Witness for C8 (amended) at confidence 1, IoU 1. -/
theorem fused_score_in_unit_interval_witness :
    (0 : ℝ) ≤ (decodeFace (α := ℝ) Real.sqrt Real.exp 1 1 ⟨0, 0, 0, 0⟩ (fun _ => 0)
      (fun _ => 1) (fun _ => 1) 0).score ∧
    (decodeFace (α := ℝ) Real.sqrt Real.exp 1 1 ⟨0, 0, 0, 0⟩ (fun _ => 0)
      (fun _ => 1) (fun _ => 1) 0).score ≤ 1 :=
  fused_score_in_unit_interval 1 1 ⟨0, 0, 0, 0⟩ (fun _ => 0) (fun _ => 1) (fun _ => 1) 0
    (by norm_num) (by norm_num)

lemma decodeAll_congr (sqrtf expf : ℚ → ℚ) (iw ih : ℚ) (priors : List Prior)
    {loc1 loc2 conf1 conf2 iou1 iou2 : ℕ → ℚ}
    (hloc : ∀ k, k < 14 * priors.length → loc1 k = loc2 k)
    (hconf : ∀ k, k < 2 * priors.length → conf1 k = conf2 k)
    (hiou : ∀ k, k < priors.length → iou1 k = iou2 k) :
    decodeAll sqrtf expf iw ih priors loc1 conf1 iou1
      = decodeAll sqrtf expf iw ih priors loc2 conf2 iou2 := by
  unfold decodeAll
  refine List.map_congr_left ?_
  intro i hi
  rw [List.mem_range] at hi
  have hl : ∀ k, k ≤ 13 → loc1 (i * 14 + k) = loc2 (i * 14 + k) := fun k hk =>
    hloc _ (by omega)
  have hc : conf1 (i * 2 + 1) = conf2 (i * 2 + 1) := hconf _ (by omega)
  have hio : iou1 i = iou2 i := hiou _ hi
  unfold decodeFace
  simp only [hl 0 (by norm_num), hl 1 (by norm_num), hl 2 (by norm_num), hl 3 (by norm_num),
    hl 4 (by norm_num), hl 5 (by norm_num), hl 6 (by norm_num), hl 7 (by norm_num),
    hl 8 (by norm_num), hl 9 (by norm_num), hl 10 (by norm_num), hl 11 (by norm_num),
    hl 12 (by norm_num), hl 13 (by norm_num), hc, hio]

/-- C9 counterexample: with non-positive configured dimensions the pipeline
does not fail and signals nothing — `generatePriors` returns normally with an
empty prior list and `postProcess` returns a normal empty detection list. -/
theorem no_error_on_invalid_input :
    generatePriors 0 240 = [] ∧
    generatePriors (-3) (-7) = [] ∧
    postProcess (fun x => x) (fun x => x) 0 240 (fun _ => 0) (fun _ => 0) (fun _ => 0)
      (9/10) (3/10) 5000 = [] := by
  refine ⟨by decide, by decide, ?_⟩
  unfold postProcess
  rw [show generatePriors 0 240 = [] from by decide]
  rfl

/-- C9 (amended): non-positive configured dimensions yield an empty prior list
and an empty detection list, with no failure and no partial results; tensor
row counts are never validated — the pipeline reads exactly the prior count of
rows positionally from each tensor (14, 2, and 1 entries per anchor), and its
result depends on nothing beyond those reads. -/
theorem invalid_input_behavior (img_w img_h : ℤ) (sqrtf expf : ℚ → ℚ)
    (loc_v conf_v iou_v : ℕ → ℚ) (scoreT nmsT : ℚ) (topK : ℕ) :
    (img_w ≤ 0 ∨ img_h ≤ 0 →
      generatePriors img_w img_h = [] ∧
      postProcess sqrtf expf img_w img_h loc_v conf_v iou_v scoreT nmsT topK = []) ∧
    (∀ loc2 conf2 iou2 : ℕ → ℚ,
      (∀ k, k < 14 * (generatePriors img_w img_h).length → loc_v k = loc2 k) →
      (∀ k, k < 2 * (generatePriors img_w img_h).length → conf_v k = conf2 k) →
      (∀ k, k < (generatePriors img_w img_h).length → iou_v k = iou2 k) →
      postProcess sqrtf expf img_w img_h loc_v conf_v iou_v scoreT nmsT topK
        = postProcess sqrtf expf img_w img_h loc2 conf2 iou2 scoreT nmsT topK) := by
  constructor
  · intro hdim
    have hnil := generatePriors_nil hdim
    refine ⟨hnil, ?_⟩
    unfold postProcess
    rw [hnil]
    rfl
  · intro loc2 conf2 iou2 hloc hconf hiou
    unfold postProcess
    rw [decodeAll_congr sqrtf expf _ _ _ hloc hconf hiou]

/-- Witness for C9 (amended) at dimensions (0, 240), with the positional-read
conjunct instantiated at identical tensors. -/
theorem invalid_input_behavior_witness :
    (generatePriors 0 240 = [] ∧
      postProcess (fun x => x) (fun x => x) 0 240 (fun _ => 1) (fun _ => 1) (fun _ => 1)
        (9/10) (3/10) 5000 = []) ∧
    postProcess (fun x => x) (fun x => x) 0 240 (fun _ => 1) (fun _ => 1) (fun _ => 1)
        (9/10) (3/10) 5000
      = postProcess (fun x => x) (fun x => x) 0 240 (fun _ => 1) (fun _ => 1) (fun _ => 1)
        (9/10) (3/10) 5000 := by
  have h := invalid_input_behavior 0 240 (fun x => x) (fun x => x) (fun _ => 1) (fun _ => 1)
    (fun _ => 1) (9/10) (3/10) 5000
  exact ⟨h.1 (Or.inl le_rfl),
    h.2 (fun _ => 1) (fun _ => 1) (fun _ => 1) (fun _ _ => rfl) (fun _ _ => rfl)
      (fun _ _ => rfl)⟩

/-- C10: when suppression runs (more than one decoded row), NMS receives the
float-truncated integer boxes together with the untruncated float scores, the
returned detections are the original untruncated rows selected by index, and
two rows whose float boxes truncate identically are indistinguishable to the
NMS IoU comparisons. -/
theorem nms_on_truncated_boxes (scoreT nmsT : ℚ) (topK : ℕ) (faces : List Face)
    (hlen : 1 < faces.length) :
    suppress scoreT nmsT topK faces
      = (nmsKeep scoreT nmsT topK (buildCands faces)).map (fun c => faces.getD c.idx default) ∧
    (∀ c ∈ buildCands faces,
      c.box = truncBox (faces.getD c.idx default) ∧
      c.score = (faces.getD c.idx default).score) ∧
    (∀ f ∈ suppress scoreT nmsT topK faces, f ∈ faces) ∧
    (∀ f g : Face, truncBox f = truncBox g → ∀ b : IBox,
      iouI (truncBox f) b = iouI (truncBox g) b ∧
      iouI b (truncBox f) = iouI b (truncBox g)) := by
  refine ⟨?_, ?_, ?_, ?_⟩
  · unfold suppress
    rw [if_pos hlen]
  · intro c hc
    exact (mem_buildCands hc).2
  · intro f hf
    unfold suppress at hf
    rw [if_pos hlen] at hf
    rcases List.mem_map.1 hf with ⟨c, hc, rfl⟩
    obtain ⟨hidx, _, _⟩ := mem_buildCands (mem_nmsKeep hc).1
    rw [List.getD_eq_getElem _ _ hidx]
    exact List.getElem_mem hidx
  · intro f g hfg b
    rw [hfg]
    exact ⟨rfl, rfl⟩

/-- Witness for C10: the sub-pixel pair `faceC`, `faceD` truncate to the same
integer box, so NMS compares them identically; the suppression equation is
instantiated on the concrete list `[faceC, faceD]`. -/
theorem nms_on_truncated_boxes_witness :
    suppress (9/10) (3/10) 5000 [faceC, faceD]
      = (nmsKeep (9/10) (3/10) 5000 (buildCands [faceC, faceD])).map
          (fun c => [faceC, faceD].getD c.idx default) ∧
    iouI (truncBox faceC) ⟨0, 0, 1, 1⟩ = iouI (truncBox faceD) ⟨0, 0, 1, 1⟩ := by
  have h := nms_on_truncated_boxes (9/10) (3/10) 5000 [faceC, faceD] (by simp)
  refine ⟨h.1, (h.2.2.2 faceC faceD ?_ ⟨0, 0, 1, 1⟩).1⟩
  norm_num [truncBox, truncZ, faceC, faceD]

end DnnFace
